import Mathlib

/-!
Verification of the data-merge pipeline of the vault application
(src/components/SettingsPage.tsx and src/App.tsx).

The TypeScript functions are shallowly embedded: strings are Lean strings,
JavaScript objects with string keys are insertion-ordered association lists,
asynchronous collaborator calls (storage reads, spreadsheet and word-document
extraction, template rendering, text decoding) are explicit parameters whose
outcomes are values of Except or Bool, and thrown exceptions are the error
branches of those values.  Every definition follows the corresponding source
function; line references point into the repository sources.
-/

/-- Model of the character class of the JavaScript regular-expression token
backslash-s restricted to the code points that can realistically occur here
(space, tab, newline, carriage return, vertical tab, form feed, no-break
space, BOM).  Used by the models of String.prototype.trim and split. -/
def jsIsSpace (c : Char) : Bool :=
  c = ' ' || c = '\t' || c = '\n' || c = '\r' ||
  c.toNat = 11 || c.toNat = 12 || c.toNat = 160 || c.toNat = 65279

/-- Model of JavaScript String.prototype.trim. -/
def jsTrim (s : String) : String :=
  (((s.data.dropWhile jsIsSpace).reverse.dropWhile jsIsSpace).reverse).asString

/-- Model of JavaScript String.prototype.toUpperCase (ASCII range). -/
def jsToUpper (s : String) : String :=
  (s.data.map Char.toUpper).asString

/-- Model of JavaScript String.prototype.toLowerCase (ASCII range). -/
def jsToLower (s : String) : String :=
  (s.data.map Char.toLower).asString

/-- Model of String.prototype.startsWith. -/
def strStartsWith (s pat : String) : Bool :=
  pat.data.isPrefixOf s.data

/-- Model of String.prototype.endsWith. -/
def strEndsWith (s pat : String) : Bool :=
  pat.data.reverse.isPrefixOf s.data.reverse

/-- Drop the first n characters (String.prototype.slice with start n). -/
def strDrop (s : String) (n : Nat) : String :=
  (s.data.drop n).asString

/-- Drop the last n characters (String.prototype.slice with end -n). -/
def strDropRight (s : String) (n : Nat) : String :=
  (s.data.take (s.data.length - n)).asString

/-- Fuel-driven splitter: splits a character list at every non-overlapping
leftmost occurrence of a non-empty key, as a global literal regular
expression does.  The fuel is the length of the text, which bounds the
number of steps. -/
def jsSplitAux (key : List Char) : Nat → List Char → List Char → List (List Char)
  | _, acc, [] => [acc.reverse]
  | 0, acc, rest => [acc.reverse ++ rest]
  | fuel + 1, acc, c :: cs =>
    if key.isPrefixOf (c :: cs) then
      acc.reverse :: jsSplitAux key fuel [] (cs.drop (key.length - 1))
    else
      jsSplitAux key fuel (c :: acc) cs

/-- Split text at every non-overlapping occurrence of key.  This is the
decomposition that the source induces with a global regular expression
built from the escaped literal key (SettingsPage.tsx line 1205). -/
def jsSplitOn (text key : String) : List String :=
  if key = "" then [text]
  else (jsSplitAux key.data text.data.length [] text.data).map List.asString

/-- Number of matches that the global literal pattern finds in text, the
length of match(regex) in the source (SettingsPage.tsx line 1206). -/
def countOccs (text key : String) : Nat :=
  (jsSplitOn text key).length - 1

/-- Model of String.prototype.includes. -/
def jsIncludes (s sub : String) : Bool :=
  if sub = "" then true else (jsSplitOn s sub).length ≥ 2

/-- Join a list of pieces with a separator; the inverse of jsSplitOn. -/
def joinWith (sep : String) : List String → String
  | [] => ""
  | [p] => p
  | p :: q :: rest => p ++ sep ++ joinWith sep (q :: rest)

/-- Model of the replacement-pattern expansion that JavaScript
String.prototype.replace performs on a string replacement argument:
a dollar followed by another dollar yields a literal dollar, dollar-ampersand
yields the matched text, dollar-backquote yields the text before the match,
dollar-quote (code point 39) yields the text after the match, and any other
dollar sequence is literal (the pattern here has no capture groups, so
dollar-digit is also literal).  Character code points 96 and 39 are compared
numerically. -/
def jsExpandL (matched pre suf : List Char) : List Char → List Char
  | [] => []
  | c :: cs =>
    if c = '$' then
      match cs with
      | [] => ['$']
      | d :: cs' =>
        if d = '$' then '$' :: jsExpandL matched pre suf cs'
        else if d = '&' then matched ++ jsExpandL matched pre suf cs'
        else if d.toNat = 96 then pre ++ jsExpandL matched pre suf cs'
        else if d.toNat = 39 then suf ++ jsExpandL matched pre suf cs'
        else '$' :: d :: jsExpandL matched pre suf cs'
    else c :: jsExpandL matched pre suf cs

/-- Rebuild the text from the split pieces, expanding the replacement for
each match; pre accumulates the original text before the current match. -/
def jsReplGo (key repl : String) : String → List String → String
  | _, [] => ""
  | _, [p] => p
  | pre, p :: q :: rest =>
    p ++ (jsExpandL key.data (pre ++ p).data (joinWith key (q :: rest)).data repl.data).asString
      ++ jsReplGo key repl (pre ++ p ++ key) (q :: rest)

/-- Model of text.replace(regex, repl) where regex is the global pattern
built from the regex-escaped literal key (SettingsPage.tsx lines 1205-1210):
every non-overlapping occurrence of key is replaced, and the replacement
string undergoes the JavaScript replacement-pattern expansion. -/
def jsReplaceAll (text key repl : String) : String :=
  if key = "" then text
  else jsReplGo key repl "" (jsSplitOn text key)

/-- Identifier normalization at the enrichment-lookup site
(SettingsPage.tsx line 858): k.trim().replace of an anchored alternation of
a leading dollar-percent and a trailing percent-dollar, globally.  The two
sides of the decoration are stripped independently of each other. -/
def cleanLoose (k : String) : String :=
  let t := jsTrim k
  let t1 := if strStartsWith t "$%" then strDrop t 2 else t
  if strEndsWith t1 "%$" then strDropRight t1 2 else t1

/-- Identifier normalization at the final-key-emission site
(SettingsPage.tsx lines 1162-1166): the decoration is stripped with
slice(2, -2) only when the trimmed key both starts with dollar-percent and
ends with percent-dollar. -/
def cleanBalanced (k : String) : String :=
  let t := jsTrim k
  if strStartsWith t "$%" && strEndsWith t "%$" then
    strDropRight (strDrop t 2) 2
  else t

/-- Status of one identifier pair after a substitution run. -/
inductive PairStatus where
  | replaced
  | notFound
deriving DecidableEq

/-- One identifier pair of the merge session (KeyValuePair in the source);
status none models the undefined status of a freshly parsed or edited pair. -/
structure KVPair where
  id : Nat
  key : String
  value : String
  status : Option PairStatus := none
deriving DecidableEq

/-- Session status enum (mergeStatus state of the source). -/
inductive MergeStatus where
  | idle
  | processing
  | success
  | error
deriving DecidableEq

/-- The produced output document: name, mime type, and for the plain-text
variant the decoded output text (none for the opaque docx container). -/
structure OutFile where
  name : String
  mime : String
  text : Option String
deriving DecidableEq

/-- The merge-session state touched by handleMerge: the pair list, the
status enum, the status message and the optional result document. -/
structure Session where
  pairs : List KVPair
  mergeStatus : MergeStatus
  mergeMessage : String
  resultFile : Option OutFile
deriving DecidableEq

/-- Accumulator of the plain-text substitution loop: the evolving document
text and the running total replacement count. -/
structure TextAcc where
  content : String
  count : Nat
deriving DecidableEq

/-- One iteration of the plain-text substitution loop
(SettingsPage.tsx lines 1202-1214): a pair with a non-empty key that occurs
in the current text replaces every occurrence, adds the number of matches to
the count and gets status replaced; otherwise the pair gets status
not-found and text and count are unchanged. -/
def textStep (acc : TextAcc) (p : KVPair) : TextAcc × KVPair :=
  if p.key ≠ "" ∧ jsIncludes acc.content p.key = true then
    (⟨jsReplaceAll acc.content p.key p.value, acc.count + countOccs acc.content p.key⟩,
     { p with status := some .replaced })
  else
    (acc, { p with status := some .notFound })

/-- The plain-text substitution loop over the whole pair list, threading the
evolving text and count through the pairs in list order. -/
def textMergeGo (acc : TextAcc) : List KVPair → TextAcc × List KVPair
  | [] => (acc, [])
  | p :: ps =>
    let r := textStep acc p
    let rest := textMergeGo r.1 ps
    (rest.1, r.2 :: rest.2)

/-- The word characters of the JavaScript regular-expression token
backslash-w: ASCII letters, digits and underscore. -/
def isWordChar (c : Char) : Bool :=
  c.isAlpha || c.isDigit || c = '_'

/-- Output file naming (SettingsPage.tsx lines 1184 and 1218):
name.replace of the anchored pattern dot-then-word-characters-at-end with
the text underscore-merged followed by the matched extension.  When the name
does not end in a dot followed by one or more word characters, the pattern
does not match and the name is returned unchanged. -/
def outputName (name : String) : String :=
  if (name.data.reverse.takeWhile isWordChar) ≠ [] ∧
     ((name.data.reverse).drop (name.data.reverse.takeWhile isWordChar).length).head?
       = some '.' then
    ((name.data.reverse.drop ((name.data.reverse.takeWhile isWordChar).length + 1)).reverse).asString
      ++ "_merged." ++ ((name.data.reverse.takeWhile isWordChar).reverse).asString
  else name

/-- Mime type of the structured word-processing container. -/
def docxMime : String :=
  "application/vnd.openxmlformats-officedocument.wordprocessingml.document"

/-- Dispatch of handleMerge (SettingsPage.tsx line 1123): the structured
branch runs when the lowercased file name ends in .docx or the declared mime
type is the docx container type. -/
def isDocxFile (name type : String) : Bool :=
  strEndsWith (jsToLower name) ".docx" || type = docxMime

/-- Insertion into a JavaScript object with string keys, viewed as an
insertion-ordered association list: assignment to a present key overwrites
its value in place, assignment to an absent key appends the entry. -/
def objInsert (m : List (String × String)) (k v : String) : List (String × String) :=
  if m.any (fun p => p.1 == k) then
    m.map (fun p => if p.1 == k then (k, v) else p)
  else m ++ [(k, v)]

/-- The advisory placeholder-presence check applied to each pair before the
structured render (SettingsPage.tsx lines 1141-1153): the trimmed key is
decorated on each side that is not already decorated and the pair status is
set according to literal presence of the decorated string in the raw
template text. -/
def docxStatusCheck (text : String) (p : KVPair) : KVPair :=
  let ck := jsTrim p.key
  let s1 := if strStartsWith ck "$%" then ck else "$%" ++ ck
  let s2 := if strEndsWith s1 "%$" then s1 else s1 ++ "%$"
  { p with status := if jsIncludes text s2 then some .replaced else some .notFound }

/-- The flat map handed to the rendering collaborator
(SettingsPage.tsx lines 1160-1167): built from the pair list with the
balanced normalization applied to each trimmed key. -/
def buildData (pairs : List KVPair) : List (String × String) :=
  pairs.foldl (fun m p => objInsert m (cleanBalanced p.key) p.value) []

/-- Generic session error message set by the catch of handleMerge. -/
def failMsg : String := "Failed to process file. Ensure identifiers match."

/-- Success message of the structured branch. -/
def docxOkMsg : String := "Processed successfully! Ready to download."

/-- Success message of the plain-text branch, reporting the total count. -/
def textOkMsg (n : Nat) : String :=
  "Success! Replaced " ++ toString n ++ " instances."

/-- Outcomes of the asynchronous collaborators that handleMerge consults:
the target file identity, presence of the zip and render libraries, presence
of the raw-text extraction library and the outcome of its call, the outcome
of the render call on the flat map (false models a throw), and the outcome
of decoding the target text (error models a throw). -/
structure MergeEnv where
  fileName : String
  fileType : String
  libsLoaded : Bool
  mammothPresent : Bool
  extractRaw : Except Unit String
  render : List (String × String) → Bool
  textDecode : Except Unit String

/-- Model of handleMerge (SettingsPage.tsx lines 1115-1231) as a function
from the pre-run session state to the post-run state.  The transient
processing status and the initial clearing of the result file are folded
into the final state; every throw inside the try block lands in the catch,
which sets the error status, the generic message and leaves the result file
cleared. -/
def handleMerge (env : MergeEnv) (s : Session) : Session :=
  if s.pairs = [] then s
  else if isDocxFile env.fileName env.fileType then
    if env.libsLoaded then
      let pairs2 :=
        if env.mammothPresent then
          match env.extractRaw with
          | .ok text => s.pairs.map (docxStatusCheck text)
          | .error _ => s.pairs
        else s.pairs
      if env.render (buildData s.pairs) then
        { pairs := pairs2, mergeStatus := .success, mergeMessage := docxOkMsg,
          resultFile := some ⟨outputName env.fileName, docxMime, none⟩ }
      else
        { pairs := pairs2, mergeStatus := .error, mergeMessage := failMsg,
          resultFile := none }
    else
      { s with mergeStatus := .error, mergeMessage := failMsg, resultFile := none }
  else
    match env.textDecode with
    | .error _ =>
      { s with mergeStatus := .error, mergeMessage := failMsg, resultFile := none }
    | .ok content =>
      let r := textMergeGo ⟨content, 0⟩ s.pairs
      { pairs := r.2, mergeStatus := .success, mergeMessage := textOkMsg r.1.count,
        resultFile := some ⟨outputName env.fileName, env.fileType, some r.1.content⟩ }

/-- One row of the spreadsheet parser of the data file
(SettingsPage.tsx lines 970-974): each cell is modelled as none for a null
or undefined slot and some s for the stringified cell.  A row with at least
one cell whose column 0 is not null contributes the entry trimmed-column-0
to trimmed-column-1 (empty when column 1 is absent, null or empty); a
column-0 cell holding an empty or whitespace-only string passes the
not-null test and is inserted. -/
def xlsxRowStep (m : List (String × String)) (row : List (Option String)) :
    List (String × String) :=
  match row with
  | [] => m
  | c0 :: rest =>
    match c0 with
    | none => m
    | some s =>
      let v := match rest.head? with
        | some (some c) => c
        | _ => ""
      objInsert m (jsTrim s) (jsTrim v)

/-- Spreadsheet parser of the data file (SettingsPage.tsx lines 969-974):
the rows are the header-1 array output of sheet_to_json, folded into the
mapping in order. -/
def parseXlsxRows (rows : List (List (Option String))) : List (String × String) :=
  rows.foldl xlsxRowStep []

/-- One table row of the word-table parser of the data file
(SettingsPage.tsx lines 1005-1015): the row is the list of the text
contents of its td cells; a row with at least one cell contributes
trimmed-cell-0 to trimmed-cell-1 (empty when absent), but only when the
trimmed key is non-empty. -/
def docxRowStep (m : List (String × String)) (cells : List String) :
    List (String × String) :=
  match cells with
  | [] => m
  | c0 :: rest =>
    let key := jsTrim c0
    if key ≠ "" then
      objInsert m key ((rest.head?.map jsTrim).getD "")
    else m

/-- Word-table parser of the data file: every tr row of the converted
document, folded into the mapping in order. -/
def parseDocxTableRows (rows : List (List String)) : List (String × String) :=
  rows.foldl docxRowStep []

/-- The one-character delimiter class of the first capture group of the
line pattern of the delimited-text parser: colon, equals sign, comma. -/
def class1 (c : Char) : Bool :=
  c = ':' || c = '=' || c = ','

/-- The delimiter-run class of the line pattern: colon, equals sign, comma
or tab. -/
def classD (c : Char) : Bool :=
  class1 c || c = '\t'

/-- Index of the last tab character of a character list, if any. -/
def lastTabIdx : List Char → Option Nat
  | [] => none
  | c :: cs =>
    match lastTabIdx cs with
    | some j => some (j + 1)
    | none => if c = '\t' then some 0 else none

/-- The anchored line pattern of the delimited-text fallback parser
(SettingsPage.tsx line 932): one or more characters outside the class
colon-equals-comma, then one or more characters of the class
colon-equals-comma-tab, then the rest.  When a colon, equals sign or comma
occurs, the greedy first group stops right before the first such character
and the delimiter run is the maximal run of delimiter-class characters from
there; when none occurs but a tab does, backtracking puts the split at the
last tab.  Returns the two raw capture groups. -/
def matchKV (s : String) : Option (String × String) :=
  let cs := s.data
  let k0 := cs.takeWhile (fun c => !(class1 c))
  if k0.length = 0 then none
  else if k0.length < cs.length then
    let rest := cs.drop k0.length
    let d := rest.takeWhile classD
    some (k0.asString, (rest.drop d.length).asString)
  else
    match lastTabIdx cs with
    | some j => if 1 ≤ j then some ((cs.take j).asString, (cs.drop (j + 1)).asString) else none
    | none => none

/-- Split a character list at whitespace characters (each whitespace char
is a cut point; empty segments arise at runs and are filtered by the
caller, matching split on the regular expression of one-or-more
whitespace applied to a trimmed line). -/
def splitAtWs : List Char → List (List Char)
  | [] => [[]]
  | c :: cs =>
    if jsIsSpace c then [] :: splitAtWs cs
    else
      match splitAtWs cs with
      | t :: ts => (c :: t) :: ts
      | [] => [[c]]

/-- Model of trimmed.split on one-or-more whitespace for a trimmed line:
the non-empty whitespace-separated tokens. -/
def jsSplitWs (s : String) : List String :=
  ((splitAtWs s.data).filter (fun t => t ≠ [])).map List.asString

/-- One line of the delimited-text fallback parser
(SettingsPage.tsx lines 928-943): blank lines are skipped; a line matching
the delimiter pattern contributes trimmed-group-1 to trimmed-group-2;
otherwise the line is split on whitespace runs, two or more tokens
contribute first-token to the remaining tokens joined with single spaces,
and a single token contributes the whole trimmed line with empty value. -/
def parseTextLine (m : List (String × String)) (line : String) : List (String × String) :=
  let t := jsTrim line
  if t = "" then m
  else
    match matchKV t with
    | some (k, v) => objInsert m (jsTrim k) (jsTrim v)
    | none =>
      let parts := jsSplitWs t
      if 2 ≤ parts.length then
        objInsert m (parts.headD "") (joinWith " " parts.tail)
      else objInsert m t ""

/-- The line-oriented fallback of the delimited-text parser, applied to the
whole decoded text when JSON parsing has failed: the text is split on
newline characters and each line is folded into the mapping. -/
def parseTextFallback (text : String) : List (String × String) :=
  (jsSplitOn text "\n").foldl parseTextLine []

/-- Device details returned by the enrichment lookup
(SettingsPage.tsx line 772): each field is absent when the corresponding
header column was not found (or, in the spreadsheet path, when the matched
row lacks it). -/
structure DeviceDetails where
  deviceName : Option String
  model : Option String
  manufacturer : Option String
deriving DecidableEq

/-- Parsed content of one stored device-info document, folding the
extension dispatch of searchDeviceInStorage into the constructor: missing
models a storage read that returns no record (skipped), excel and word
carry the outcome of reading and extracting the document (error models a
throw during arrayBuffer, read or convertToHtml), other models an extension
with no handler (skipped).  excel rows are the object rows of
sheet_to_json, as header-to-cell association lists; word tables are lists
of rows of cell texts. -/
inductive DeviceContent where
  | missing
  | excel (r : Except Unit (List (List (String × String))))
  | word (r : Except Unit (List (List (List String))))
  | other

/-- One stored document flagged as device info. -/
structure DeviceFile where
  name : String
  content : DeviceContent

/-- Whether scanning this device-info document throws during read or
extraction. -/
def extractThrows (f : DeviceFile) : Bool :=
  match f.content with
  | .excel (.error _) => true
  | .word (.error _) => true
  | _ => false

/-- Spreadsheet arm of the device lookup (SettingsPage.tsx lines 792-808):
scan the object rows; in a row whose first key trimming to the identifier
label holds a value trim-equal to the trimmed device id, extract the
sibling columns by trimmed header label (values returned untrimmed). -/
def searchExcelRows (rows : List (List (String × String))) (deviceId : String) :
    Option DeviceDetails :=
  rows.findSome? fun row =>
    match row.find? (fun p => jsTrim p.1 == "设备编号") with
    | none => none
    | some idp =>
      if jsTrim idp.2 = jsTrim deviceId then
        some ⟨(row.find? (fun p => jsTrim p.1 == "设备名称")).map (·.2),
              (row.find? (fun p => jsTrim p.1 == "型号")).map (·.2),
              (row.find? (fun p => jsTrim p.1 == "厂家")).map (·.2)⟩
      else none

/-- Word-table arm of the device lookup (SettingsPage.tsx lines 820-844):
tables with fewer than two rows are skipped; the identifier column is
located by exact match in the trimmed header cells; in the first body row
whose identifier cell trim-equals the trimmed device id, the sibling cells
are extracted by header index (values trimmed, absent when the column was
not located or the cell is missing). -/
def searchWordTable (table : List (List String)) (deviceId : String) :
    Option DeviceDetails :=
  match table with
  | [] => none
  | header :: body =>
    if body.length = 0 then none
    else
      let headers := header.map jsTrim
      match headers.findIdx? (fun h => h == "设备编号") with
      | none => none
      | some idIdx =>
        body.findSome? fun cells =>
          match cells[idIdx]? with
          | none => none
          | some c =>
            if jsTrim c = jsTrim deviceId then
              some ⟨(headers.findIdx? (fun h => h == "设备名称")).bind
                      (fun i => cells[i]?.map jsTrim),
                    (headers.findIdx? (fun h => h == "型号")).bind
                      (fun i => cells[i]?.map jsTrim),
                    (headers.findIdx? (fun h => h == "厂家")).bind
                      (fun i => cells[i]?.map jsTrim)⟩
            else none

/-- All tables of one word document, scanned in order. -/
def searchWordTables (tables : List (List (List String))) (deviceId : String) :
    Option DeviceDetails :=
  tables.findSome? (searchWordTable · deviceId)

/-- Model of searchDeviceInStorage (SettingsPage.tsx lines 772-852).  The
corpus is the stored device-info file list in storage order.  The whole
scan loop sits inside one try block whose catch logs a warning and falls
through to the null return: a throw while reading or extracting any single
document therefore ends the scan at that document, returning null without
visiting the remaining documents, and never surfaces an error.  A document
that yields a match returns immediately, so later documents are not
visited after a match either. -/
def searchDeviceInStorage : List DeviceFile → String → Option DeviceDetails
  | [], _ => none
  | f :: rest, deviceId =>
    match f.content with
    | .missing => searchDeviceInStorage rest deviceId
    | .other => searchDeviceInStorage rest deviceId
    | .excel (.error _) => none
    | .excel (.ok rows) =>
      match searchExcelRows rows deviceId with
      | some d => some d
      | none => searchDeviceInStorage rest deviceId
    | .word (.error _) => none
    | .word (.ok tables) =>
      match searchWordTables tables deviceId with
      | some d => some d
      | none => searchDeviceInStorage rest deviceId

/-- The enrichment step of processData (SettingsPage.tsx lines 854-879):
find the first key whose loose normalization equals the identifier label
and take its value as the device id; when the id is non-empty, run the
storage lookup and write each found, non-empty field into the mapping under
its decorated key.  A lookup returning nothing (including the swallowed
throw case) leaves the mapping unchanged. -/
def processEnrich (data : List (String × String)) (corpus : List DeviceFile) :
    List (String × String) :=
  let deviceId :=
    match data.find? (fun p => cleanLoose p.1 == "设备编号") with
    | some p => p.2
    | none => ""
  if deviceId = "" then data
  else
    match searchDeviceInStorage corpus deviceId with
    | none => data
    | some d =>
      let m1 := match d.deviceName with
        | some v => if v ≠ "" then objInsert data "$%设备名称%$" v else data
        | none => data
      let m2 := match d.model with
        | some v => if v ≠ "" then objInsert m1 "$%型号%$" v else m1
        | none => m1
      match d.manufacturer with
      | some v => if v ≠ "" then objInsert m2 "$%厂家%$" v else m2
      | none => m2

/-- Model of handleAddCategory (App.tsx lines 91-100): the trimmed name is
appended unless it is already in the list or its uppercase form equals one
of the three reserved labels. -/
def handleAddCategory (cats : List String) (name : String) : List String :=
  let t := jsTrim name
  if t ∈ cats ∨ jsToUpper t = "IMAGES" ∨ jsToUpper t = "DOCUMENTS" ∨
     jsToUpper t = "DEVICE TYPE" then cats
  else cats ++ [t]

/-- A stored device-info spreadsheet whose single object row matches device
id D100 (sheet_to_json output of a sheet with header row of the four labels
and one data row). -/
def devDoc : DeviceFile :=
  ⟨"devices.xlsx",
   .excel (.ok [[("设备编号", "D100"), ("设备名称", "Sensor"),
                 ("型号", "M1"), ("厂家", "ACME")]])⟩

/-- A stored device-info spreadsheet whose read or parse throws. -/
def devBad : DeviceFile := ⟨"broken.xlsx", .excel (.error ())⟩

/-- A second stored device-info spreadsheet that also matches D100 but with
different field values, used to observe that scanning stops at the first
match. -/
def devDecoy : DeviceFile :=
  ⟨"more.xlsx",
   .excel (.ok [[("设备编号", "D100"), ("设备名称", "Other"),
                 ("型号", "X9"), ("厂家", "Zeta")]])⟩

/-- A session holding one untouched pair. -/
def sKV : Session := ⟨[⟨0, "K", "V", none⟩], .idle, "", none⟩

/-- A docx-target environment whose render call throws; the raw-text
extraction succeeds on a text that contains no placeholder. -/
def envDocxFail : MergeEnv :=
  ⟨"t.docx", docxMime, true, true, .ok "hello world", fun _ => false, .ok ""⟩

/-- A text-target environment whose text decode throws. -/
def envTextFail : MergeEnv :=
  ⟨"t.txt", "text/plain", true, true, .ok "", fun _ => true, .error ()⟩

/-- A docx-target environment whose render succeeds (raw-text extraction
library absent). -/
def envDocxOk : MergeEnv :=
  ⟨"t.docx", docxMime, true, false, .ok "", fun _ => true, .ok ""⟩

/-- A text-target environment with an extensionless file name. -/
def envReadme : MergeEnv :=
  ⟨"README", "text/plain", true, true, .ok "", fun _ => true, .ok "hi K"⟩

/-- A text-target environment whose document text is the single letter A. -/
def envTextA : MergeEnv :=
  ⟨"d.txt", "text/plain", true, true, .ok "", fun _ => true, .ok "A"⟩

/-- Pairs A to B then B to C, in that order. -/
def sAB : Session := ⟨[⟨0, "A", "B", none⟩, ⟨1, "B", "C", none⟩], .idle, "", none⟩

/-- The same two pairs in the opposite order. -/
def sBA : Session := ⟨[⟨1, "B", "C", none⟩, ⟨0, "A", "B", none⟩], .idle, "", none⟩

/-- One pair whose value is the two-character string dollar-dollar. -/
def sDollar : Session := ⟨[⟨0, "A", "$$", none⟩], .idle, "", none⟩

/-! Helper lemmas shared by the claim theorems. -/

/-- Rebuilding a string from its character data is the identity. -/
theorem asString_data (s : String) : s.data.asString = s := by
  cases s; rfl

/-- Replacement-pattern expansion is the identity on a replacement string
that contains no dollar character. -/
theorem jsExpand_noDollar (matched pre suf repl : List Char) (h : '$' ∉ repl) :
    jsExpandL matched pre suf repl = repl := by
  induction repl with
  | nil => rfl
  | cons c cs ih =>
    rw [List.mem_cons, not_or] at h
    rw [jsExpandL.eq_def]
    simp only [if_neg (fun hc => h.1 (Eq.symm hc))]
    rw [ih h.2]

/-- With a dollar-free replacement, rebuilding the pieces reduces to
joining them with the replacement. -/
theorem jsReplGo_noDollar (key repl : String) (h : '$' ∉ repl.data) :
    ∀ (pieces : List String) (pre : String),
    jsReplGo key repl pre pieces = joinWith repl pieces := by
  intro pieces
  induction pieces with
  | nil => intro pre; rfl
  | cons p rest ih =>
    intro pre
    cases rest with
    | nil => rfl
    | cons q rrest =>
      simp only [jsReplGo, joinWith]
      rw [jsExpand_noDollar _ _ _ _ h, asString_data, ih]

/-- With a non-empty key and a dollar-free replacement, the modelled
JavaScript replace is exactly split-and-join: every occurrence of the key
becomes the replacement verbatim. -/
theorem jsReplaceAll_noDollar (text key repl : String) (hk : key ≠ "")
    (h : '$' ∉ repl.data) :
    jsReplaceAll text key repl = joinWith repl (jsSplitOn text key) := by
  rw [jsReplaceAll, if_neg hk, jsReplGo_noDollar key repl h]

/-- objInsert preserves a predicate on keys that holds for the existing
keys and for the inserted key. -/
theorem objInsert_pred (P : String → Prop) (m : List (String × String))
    (k v : String) (hm : ∀ p ∈ m, P p.1) (hk : P k) :
    ∀ p ∈ objInsert m k v, P p.1 := by
  intro p hp
  unfold objInsert at hp
  split at hp
  · rcases List.mem_map.mp hp with ⟨q, hq, rfl⟩
    by_cases hqk : (q.1 == k) = true
    · rw [if_pos hqk]; exact hk
    · rw [if_neg hqk]; exact hm q hq
  · rcases List.mem_append.mp hp with hin | hone
    · exact hm p hin
    · rw [List.mem_singleton.mp hone]; exact hk

/-- The advisory docx status check changes only the status field. -/
theorem statusCheck_fields (t : String) (l : List KVPair) :
    (l.map (docxStatusCheck t)).map (fun p => (p.id, p.key, p.value)) =
    l.map (fun p => (p.id, p.key, p.value)) := by
  induction l with
  | nil => rfl
  | cons p l ih => simp [docxStatusCheck, ih]

/-- takeWhile of an append stops exactly at the first element failing the
predicate when the whole left part satisfies it. -/
theorem takeWhile_append_stop (p : Char → Bool) (l r : List Char) (x : Char)
    (hl : ∀ c ∈ l, p c = true) (hx : p x = false) :
    (l ++ x :: r).takeWhile p = l := by
  induction l with
  | nil => simp [List.takeWhile_cons, hx]
  | cons a l ih =>
    rw [List.cons_append,
        List.takeWhile_cons_of_pos (hl a (List.mem_cons_self a l)),
        ih (fun c hc => hl c (List.mem_cons_of_mem a hc))]

/-! Claim theorems. -/

/-- C1 (counterexample): at the enrichment-lookup site the normalization
strips an unbalanced leading decoration, so the key dollar-percent-Foo is
not left unchanged as the claim states. -/
theorem c1_counterexample :
    cleanLoose "$%Foo" = "Foo" ∧ cleanLoose "$%Foo" ≠ "$%Foo" := by decide

/-- C1 (amended): the balanced rule holds at the final-key-emission site of
handleMerge, which strips the decoration only when both sides are present;
the enrichment-lookup site of processData strips each side independently,
turning dollar-percent-Foo into Foo.  Both sites agree on fully decorated
and undecorated keys. -/
theorem c1_amended :
    cleanBalanced "$%Foo%$" = "Foo" ∧ cleanBalanced "Foo" = "Foo" ∧
    cleanBalanced "$%Foo" = "$%Foo" ∧ cleanBalanced "Foo%$" = "Foo%$" ∧
    cleanLoose "$%Foo%$" = "Foo" ∧ cleanLoose "Foo" = "Foo" ∧
    cleanLoose "$%Foo" = "Foo" ∧ cleanLoose "Foo%$" = "Foo" := by decide

/-- C7 (counterexample): on the line A-colon-colon-1 the parser absorbs the
whole run of delimiter characters, yielding value 1, not the trimmed
remainder colon-1 after the first delimiter that the claim states. -/
theorem c7_counterexample :
    parseTextFallback "A::1" = [("A", "1")] ∧
    parseTextFallback "A::1" ≠ [("A", ":1")] := by decide

/-- C7 (amended): for each non-blank line, everything before the first
colon, equals sign or comma is the key and the value is the trimmed text
after the maximal run of delimiter-class characters (colon, equals sign,
comma or tab) following the key; the claimed three-line example holds with
its insertion order, and a line with no such delimiter falls back to the
whitespace split. -/
theorem c7_amended :
    parseTextFallback "A:1\nB=2\nC,3" = [("A", "1"), ("B", "2"), ("C", "3")] ∧
    parseTextFallback "A::1" = [("A", "1")] ∧
    parseTextFallback "K:=,2" = [("K", "2")] ∧
    parseTextFallback "X 1 2" = [("X", "1 2")] := by decide

/-- C4 (counterexample): a spreadsheet row whose column 0 holds a
whitespace-only string passes the not-null test and is inserted with the
empty key, contradicting the claimed invariant. -/
theorem c4_counterexample :
    parseXlsxRows [[some "   ", some "v"]] = [("", "v")] := by decide

/-- Keys produced by the spreadsheet fold are non-empty provided every
present, non-null column-0 cell trims to a non-empty string. -/
theorem xlsxFold_keys (rows : List (List (Option String))) :
    ∀ (m : List (String × String)),
    (∀ row ∈ rows, ∀ s, row.head? = some (some s) → jsTrim s ≠ "") →
    (∀ p ∈ m, p.1 ≠ "") →
    ∀ p ∈ rows.foldl xlsxRowStep m, p.1 ≠ "" := by
  induction rows with
  | nil => intro m _ hm; simpa using hm
  | cons row rows ih =>
    intro m hrows hm
    rw [List.foldl_cons]
    refine ih _ (fun r hr => hrows r (List.mem_cons_of_mem _ hr)) ?_
    cases row with
    | nil => exact hm
    | cons c0 rest =>
      cases c0 with
      | none => exact hm
      | some s =>
        show ∀ p ∈ objInsert m (jsTrim s)
            (jsTrim (match rest.head? with | some (some c) => c | _ => "")), p.1 ≠ ""
        exact objInsert_pred (fun k => k ≠ "") m _ _ hm
          (hrows (some s :: rest) (List.mem_cons_self _ _) s rfl)

/-- Keys produced by the word-table fold are always non-empty, because the
step inserts only under its explicit non-empty guard. -/
theorem docxFold_keys (rows : List (List String)) :
    ∀ (m : List (String × String)), (∀ p ∈ m, p.1 ≠ "") →
    ∀ p ∈ rows.foldl docxRowStep m, p.1 ≠ "" := by
  induction rows with
  | nil => intro m hm; simpa using hm
  | cons cells rows ih =>
    intro m hm
    rw [List.foldl_cons]
    refine ih _ ?_
    cases cells with
    | nil => exact hm
    | cons c0 rest =>
      show ∀ p ∈ (if jsTrim c0 ≠ "" then
          objInsert m (jsTrim c0) ((rest.head?.map jsTrim).getD "") else m), p.1 ≠ ""
      by_cases hk : jsTrim c0 ≠ ""
      · rw [if_pos hk]
        exact objInsert_pred (fun k => k ≠ "") m _ _ hm hk
      · rw [if_neg hk]
        exact hm

/-- C4 (amended): the word-table parser never emits an entry with an empty
key; the spreadsheet parser drops rows whose column 0 is null or undefined,
but it inserts a row whose column 0 is an empty or whitespace-only string
under the key empty-string, so its no-empty-key guarantee holds only when
every present column-0 cell trims to a non-empty string. -/
theorem c4_amended :
    (∀ rows : List (List (Option String)),
      (∀ row ∈ rows, ∀ s, row.head? = some (some s) → jsTrim s ≠ "") →
      (parseXlsxRows rows).all (fun p => !(p.1 == "")) = true)
    ∧ (∀ rows : List (List String),
      (parseDocxTableRows rows).all (fun p => !(p.1 == "")) = true) := by
  constructor
  · intro rows hrows
    rw [List.all_eq_true]
    intro p hp
    have := xlsxFold_keys rows [] hrows (by simp) p hp
    simpa using this
  · intro rows
    rw [List.all_eq_true]
    intro p hp
    have := docxFold_keys rows [] (by simp) p hp
    simpa using this

/-- C4 (witness): the amended invariant evaluated on one well-formed
spreadsheet row and one word-table row. -/
theorem c4_amended_witness :
    (parseXlsxRows [[some " A ", some "1"]]).all (fun p => !(p.1 == "")) = true
    ∧ (parseDocxTableRows [["B ", "2"]]).all (fun p => !(p.1 == "")) = true := by
  constructor
  · refine c4_amended.1 _ ?_
    intro row hrow s hs
    rw [List.mem_singleton] at hrow
    subst hrow
    simp only [List.head?_cons, Option.some.injEq] at hs
    subst hs
    decide
  · exact c4_amended.2 _

/-- C9 (confirmed): adding a category whose trimmed text uppercases to one
of the three reserved labels, or whose trimmed text is already in the list,
leaves the category list unchanged. -/
theorem c9_reserved_categories (cats : List String) (name : String)
    (h : jsToUpper (jsTrim name) = "IMAGES" ∨ jsToUpper (jsTrim name) = "DOCUMENTS" ∨
         jsToUpper (jsTrim name) = "DEVICE TYPE" ∨ jsTrim name ∈ cats) :
    handleAddCategory cats name = cats := by
  unfold handleAddCategory
  rw [if_pos]
  tauto

/-- C9 (witness): a lowercase reserved label with padding, and a name
already present, are both rejected. -/
theorem c9_witness :
    handleAddCategory ["Router"] " images " = ["Router"]
    ∧ handleAddCategory ["Router"] "Router" = ["Router"] := by
  constructor
  · exact c9_reserved_categories _ _ (Or.inl (by decide))
  · exact c9_reserved_categories _ _ (Or.inr (Or.inr (Or.inr (by decide))))

/-- C5 (confirmed): on the claimed spreadsheet the lookup returns the three
sibling fields; a second matching document is not consulted once the first
matches; the identifier column is matched by trimmed exact equality and not
by substring; and the enrichment writes the three decorated keys into the
mapping after the untouched original identifier pair. -/
theorem c5_enrichment :
    searchDeviceInStorage [devDoc] "D100" =
      some ⟨some "Sensor", some "M1", some "ACME"⟩
    ∧ searchDeviceInStorage [devDoc, devDecoy] "D100" =
      some ⟨some "Sensor", some "M1", some "ACME"⟩
    ∧ searchExcelRows [[("设备编号", "D1000"), ("设备名称", "S")]] "D100" = none
    ∧ searchExcelRows [[(" 设备编号 ", " D100 "), ("设备名称", "Sensor2")]] "D100" =
      some ⟨some "Sensor2", none, none⟩
    ∧ processEnrich [("$%设备编号%$", "D100")] [devDoc] =
      [("$%设备编号%$", "D100"), ("$%设备名称%$", "Sensor"),
       ("$%型号%$", "M1"), ("$%厂家%$", "ACME")] := by decide

/-- C2 (counterexample): with a corpus whose first document throws and
whose second document matches, the scan returns no enrichment, although the
same matching document alone is found - the claimed skip-and-continue
behaviour does not hold. -/
theorem c2_counterexample :
    searchDeviceInStorage [devBad, devDoc] "D100" = none
    ∧ searchDeviceInStorage [devDoc] "D100" =
      some ⟨some "Sensor", some "M1", some "ACME"⟩ := by decide

/-- C2 (amended): the scan over the device-info corpus is wrapped in one
try-catch whose catch logs a warning and returns null, so a throw while
reading or parsing any document ends the whole scan at that document: no
later document is visited, the result degrades to no-enrichment, and the
failure is never surfaced to the user as an error.  Matches found in
documents scanned before the failing one are unaffected. -/
theorem c2_amended (goods : List DeviceFile) (bad : DeviceFile)
    (rest : List DeviceFile) (deviceId : String)
    (hg : searchDeviceInStorage goods deviceId = none)
    (hb : extractThrows bad = true) :
    searchDeviceInStorage (goods ++ bad :: rest) deviceId = none := by
  induction goods with
  | nil =>
    rw [List.nil_append]
    rcases bad with ⟨n, c⟩
    cases c with
    | missing => simp [extractThrows] at hb
    | other => simp [extractThrows] at hb
    | excel r =>
      cases r with
      | error e => rfl
      | ok rows => simp [extractThrows] at hb
    | word r =>
      cases r with
      | error e => rfl
      | ok tables => simp [extractThrows] at hb
  | cons f goods ih =>
    rw [List.cons_append]
    rcases hfc : f.content with _ | r | r | _
    · simp only [searchDeviceInStorage, hfc] at hg ⊢
      exact ih hg
    · cases r with
      | error e => simp only [searchDeviceInStorage, hfc]
      | ok rows =>
        simp only [searchDeviceInStorage, hfc] at hg ⊢
        generalize searchExcelRows rows deviceId = x at hg ⊢
        cases x with
        | some d => simp at hg
        | none => exact ih hg
    · cases r with
      | error e => simp only [searchDeviceInStorage, hfc]
      | ok tables =>
        simp only [searchDeviceInStorage, hfc] at hg ⊢
        generalize searchWordTables tables deviceId = x at hg ⊢
        cases x with
        | some d => simp at hg
        | none => exact ih hg
    · simp only [searchDeviceInStorage, hfc] at hg ⊢
      exact ih hg

/-- C2 (witness): the amended abort behaviour applied to the concrete
two-document corpus. -/
theorem c2_amended_witness :
    searchDeviceInStorage [devBad, devDoc] "D100" = none :=
  c2_amended [] devBad [devDoc] "D100" rfl rfl

/-- C6 (counterexample): with document text A and the pair with key A and
value dollar-dollar, the occurrence is replaced by a single dollar, not by
the literal value dollar-dollar as the claim states, because the JavaScript
replacement argument is not escaped against replacement patterns. -/
theorem c6_counterexample :
    (handleMerge envTextA sDollar).resultFile =
      some ⟨"d_merged.txt", "text/plain", some "$"⟩
    ∧ ("$" : String) ≠ "$$" := by decide

/-- C6 (amended): a pair with a non-empty key occurring in the current text
gets status replaced and adds its occurrence count to the total, and when
its value contains no dollar character every occurrence of the key is
replaced by the value verbatim (the text becomes the key-split of the text
joined with the value); a value containing dollar undergoes the JavaScript
replacement-pattern expansion instead.  A pair whose key does not occur, or
whose key is empty, gets status not-found and leaves text and count
unchanged. -/
theorem c6_amended :
    (∀ (c : String) (n : Nat) (p : KVPair), p.key ≠ "" →
      jsIncludes c p.key = true → '$' ∉ p.value.data →
      textStep ⟨c, n⟩ p =
        (⟨joinWith p.value (jsSplitOn c p.key), n + countOccs c p.key⟩,
         { p with status := some .replaced }))
    ∧ (∀ (c : String) (n : Nat) (p : KVPair), jsIncludes c p.key = false →
      textStep ⟨c, n⟩ p = (⟨c, n⟩, { p with status := some .notFound }))
    ∧ (∀ (c : String) (n : Nat) (p : KVPair), p.key = "" →
      textStep ⟨c, n⟩ p = (⟨c, n⟩, { p with status := some .notFound })) := by
  refine ⟨?_, ?_, ?_⟩
  · intro c n p hk hinc hd
    unfold textStep
    rw [if_pos ⟨hk, hinc⟩, jsReplaceAll_noDollar _ _ _ hk hd]
  · intro c n p hinc
    unfold textStep
    rw [if_neg (fun hc => by rw [hinc] at hc; exact Bool.false_ne_true hc.2)]
  · intro c n p hk
    unfold textStep
    rw [if_neg (fun hc => hc.1 hk)]

/-- C6 (witness): the amended postcondition evaluated on the claimed
example text and pair. -/
theorem c6_amended_witness :
    textStep ⟨"Hello NAME, welcome", 0⟩ ⟨7, "NAME", "Bob", none⟩ =
      (⟨"Hello Bob, welcome", 1⟩, ⟨7, "NAME", "Bob", some .replaced⟩) := by
  have h := c6_amended.1 "Hello NAME, welcome" 0 ⟨7, "NAME", "Bob", none⟩
    (by decide) (by decide) (by decide)
  rw [h]
  decide

/-- C10 (confirmed): the plain-text substitution applies the pairs in list
order to the evolving text.  With text A and the pairs A-to-B then B-to-C,
the second key B is absent from the original text (its occurrence count
there is zero) yet it matches the text introduced by the first value, so
the result is C with total count two and both pairs replaced; in the
opposite order the result is B with total count one and the pair B-to-C
not found: the final document and the total count depend on the pair
order. -/
theorem c10_sequential_substitution :
    (handleMerge envTextA sAB).resultFile =
      some ⟨"d_merged.txt", "text/plain", some "C"⟩
    ∧ (handleMerge envTextA sAB).mergeMessage = textOkMsg 2
    ∧ (handleMerge envTextA sAB).pairs =
      [⟨0, "A", "B", some .replaced⟩, ⟨1, "B", "C", some .replaced⟩]
    ∧ countOccs "A" "B" = 0
    ∧ (handleMerge envTextA sBA).resultFile =
      some ⟨"d_merged.txt", "text/plain", some "B"⟩
    ∧ (handleMerge envTextA sBA).mergeMessage = textOkMsg 1
    ∧ (handleMerge envTextA sBA).pairs =
      [⟨1, "B", "C", some .notFound⟩, ⟨0, "A", "B", some .replaced⟩] := by decide

/-- C3 (counterexample): a docx run whose render throws moves the session
to the error state with no output document, but the per-pair status fields
have already been rewritten by the advisory presence check that runs before
the render, so the pairs are not exactly as they were before the run. -/
theorem c3_counterexample :
    (handleMerge envDocxFail sKV).mergeStatus = .error
    ∧ (handleMerge envDocxFail sKV).resultFile = none
    ∧ (handleMerge envDocxFail sKV).pairs ≠ sKV.pairs := by decide

/-- C3 (amended): every failing run ends in the error state with the
generic message and no output document, and the identifier pairs keep their
identities, keys and values; in the plain-text variant (where only the text
decode can throw, before any status update) the pairs are exactly
unchanged, while in the structured variant the per-pair status fields may
already have been rewritten by the advisory presence check that precedes
the failing render. -/
theorem c3_amended (env : MergeEnv) (s : Session) (hne : s.pairs ≠ []) :
    (isDocxFile env.fileName env.fileType = true → env.libsLoaded = true →
      env.render (buildData s.pairs) = false →
      (handleMerge env s).mergeStatus = .error
      ∧ (handleMerge env s).resultFile = none
      ∧ (handleMerge env s).pairs.map (fun p => (p.id, p.key, p.value)) =
          s.pairs.map (fun p => (p.id, p.key, p.value)))
    ∧ (isDocxFile env.fileName env.fileType = false →
      env.textDecode = Except.error () →
      handleMerge env s =
        { s with mergeStatus := .error, mergeMessage := failMsg, resultFile := none }) := by
  constructor
  · intro hdocx hlibs hrender
    simp only [handleMerge, if_neg hne, hdocx, hlibs, hrender, if_true,
      Bool.false_eq_true, if_false]
    refine ⟨trivial, trivial, ?_⟩
    cases hm : env.mammothPresent with
    | false => rfl
    | true =>
      cases hex : env.extractRaw with
      | error e => rfl
      | ok t => exact statusCheck_fields t s.pairs
  · intro hdocx hdec
    simp only [handleMerge, if_neg hne, hdocx, Bool.false_eq_true, if_false, hdec]

/-- C3 (witness): the amended failure behaviour evaluated on a concrete
failing docx run and a concrete failing text decode. -/
theorem c3_amended_witness :
    ((handleMerge envDocxFail sKV).mergeStatus = .error
     ∧ (handleMerge envDocxFail sKV).resultFile = none
     ∧ (handleMerge envDocxFail sKV).pairs.map (fun p => (p.id, p.key, p.value)) =
         sKV.pairs.map (fun p => (p.id, p.key, p.value)))
    ∧ handleMerge envTextFail sKV =
      { sKV with mergeStatus := .error, mergeMessage := failMsg, resultFile := none } := by
  constructor
  · exact (c3_amended envDocxFail sKV (by decide)).1 (by decide) rfl rfl
  · exact (c3_amended envTextFail sKV (by decide)).2 (by decide) rfl

/-- C8 (counterexample): a name with no extension, and a name whose final
extension contains a non-word character, are returned unchanged with no
merged suffix inserted, although the claim states the rule holds for every
input name. -/
theorem c8_counterexample :
    outputName "README" = "README" ∧ outputName "file.méta" = "file.méta" := by decide

/-- The naming rule on names that do end in a dot followed by a non-empty
run of word characters: the merged suffix is inserted before that final
extension. -/
theorem c8_ext_rule (base ext : String) (hne : ext.data ≠ [])
    (hw : ∀ c ∈ ext.data, isWordChar c = true) :
    outputName (base ++ "." ++ ext) = base ++ "_merged." ++ ext := by
  have hdata : (base ++ "." ++ ext).data = base.data ++ '.' :: ext.data := by
    rw [String.data_append, String.data_append]
    simp
  have hrev : (base ++ "." ++ ext).data.reverse =
      ext.data.reverse ++ '.' :: base.data.reverse := by
    rw [hdata]
    simp
  have htake : (base ++ "." ++ ext).data.reverse.takeWhile isWordChar =
      ext.data.reverse := by
    rw [hrev]
    exact takeWhile_append_stop _ _ _ _
      (fun c hc => hw c (List.mem_reverse.mp hc)) (by decide)
  have hdrop : (base ++ "." ++ ext).data.reverse.drop ext.data.reverse.length =
      '.' :: base.data.reverse := by
    rw [hrev]
    exact List.drop_left _ _
  have hdrop1 : (base ++ "." ++ ext).data.reverse.drop (ext.data.reverse.length + 1) =
      base.data.reverse := by
    rw [hrev, show ext.data.reverse ++ '.' :: base.data.reverse =
      (ext.data.reverse ++ ['.']) ++ base.data.reverse by simp]
    rw [show ext.data.reverse.length + 1 = (ext.data.reverse ++ ['.']).length by simp]
    exact List.drop_left _ _
  have hrevne : ext.data.reverse ≠ [] := by
    simpa using hne
  simp only [outputName, htake, hdrop, hdrop1, List.head?_cons, List.reverse_reverse,
    asString_data, ne_eq, hrevne, not_false_eq_true, and_self, if_true, true_and]

/-- C8 (amended): the merged suffix is inserted before the final extension
whenever the name ends in a dot followed by a non-empty run of word
characters (ASCII letters, digits, underscore); otherwise - a name with no
extension or whose final dot segment contains another character - the name
is returned unchanged with no suffix added.  On success the plain-text
variant names the output by this rule and inherits the input mime type
unchanged, and the structured variant names it by the same rule with the
fixed docx mime type. -/
theorem c8_amended :
    (∀ base ext : String, ext.data ≠ [] → (∀ c ∈ ext.data, isWordChar c = true) →
      outputName (base ++ "." ++ ext) = base ++ "_merged." ++ ext)
    ∧ (∀ (env : MergeEnv) (s : Session) (c : String),
      isDocxFile env.fileName env.fileType = false → env.textDecode = Except.ok c →
      s.pairs ≠ [] →
      (handleMerge env s).resultFile =
        some ⟨outputName env.fileName, env.fileType,
              some (textMergeGo ⟨c, 0⟩ s.pairs).1.content⟩)
    ∧ (∀ (env : MergeEnv) (s : Session),
      isDocxFile env.fileName env.fileType = true → env.libsLoaded = true →
      env.render (buildData s.pairs) = true → s.pairs ≠ [] →
      (handleMerge env s).resultFile = some ⟨outputName env.fileName, docxMime, none⟩) := by
  refine ⟨c8_ext_rule, ?_, ?_⟩
  · intro env s c hdocx hdec hne
    simp only [handleMerge, if_neg hne, hdocx, Bool.false_eq_true, if_false, hdec]
  · intro env s hdocx hlibs hrender hne
    simp only [handleMerge, if_neg hne, hdocx, hlibs, hrender, if_true]

/-- C8 (witness): the amended naming rule evaluated on a concrete
extension, a concrete extensionless text run keeping its mime type, and a
concrete successful docx run. -/
theorem c8_amended_witness :
    outputName ("report" ++ "." ++ "txt") = "report" ++ "_merged." ++ "txt"
    ∧ (handleMerge envReadme sKV).resultFile =
      some ⟨outputName "README", "text/plain",
            some (textMergeGo ⟨"hi K", 0⟩ sKV.pairs).1.content⟩
    ∧ (handleMerge envDocxOk sKV).resultFile =
      some ⟨outputName "t.docx", docxMime, none⟩ := by
  refine ⟨c8_amended.1 "report" "txt" (by decide) (by decide),
          c8_amended.2.1 envReadme sKV "hi K" (by decide) rfl (by decide),
          c8_amended.2.2 envDocxOk sKV (by decide) rfl rfl (by decide)⟩
